import Mathlib

/-!
Verification of the distributed-file-storage server (foreverstore-style repo)
against its natural-language specification.

The Go source under `src/` is shallowly embedded below: the error taxonomy
(`package errors`), the retry helper (`package retry`), and the
`FileServer` operations of `server.go` (broadcast, Store, Get,
fetchFileFromNetwork, replicateTopeers, the two message handlers, Stop).
The blob store (`store.go`), the crypto streaming layer (`crypto.go`) and
the TCP peer type are not part of the provided sources; following the
spec, those are modelled from its words (each such definition carries a
doc comment starting with `Modelled from the spec:`).

Machine integers: Go `int64` sizes are modelled as `Int` (or `Nat` where
the source value is a byte count and hence non-negative). Bytes are `Nat`
values; byte sequences are `List Nat`.
-/

namespace DFS

/-- A byte sequence (Go `[]byte`). -/
abbrev Bytes := List Nat

/-! ## Error taxonomy (`package errors`, src/unnamed/part_002) -/

/-- The `ErrorType` tags of `package errors`. -/
inductive ErrorType where
  | networkError
  | connectionError
  | timeoutError
  | storageError
  | fileNotFoundError
  | corruptionError
  | quotaExceededError
  | authenticationError
  | authorizationError
  | encryptionError
  | configError
  | validationError
  | internalError
  | invalidInputError
deriving DecidableEq, Repr

/-- A Go `error` value as the system sees it: a `FileSystemError` with no
cause (`errors.New`), a `FileSystemError` wrapping a cause (`errors.Wrap`),
or a plain non-taxonomy error such as `io.EOF`. -/
inductive GoError where
  | fsError (t : ErrorType) (msg : String)
  | wrapped (t : ErrorType) (msg : String) (cause : GoError)
  | plain (msg : String)
deriving DecidableEq, Repr

/-- `errors.GetType`: the type of a `FileSystemError`, `InternalError` for
any other error value. -/
def GetType : GoError → ErrorType
  | .fsError t _ => t
  | .wrapped t _ _ => t
  | .plain _ => .internalError

/-- `errors.IsRetryable`: Network, Connection, Timeout and Storage errors
are retryable. -/
def IsRetryable (e : GoError) : Bool :=
  match GetType e with
  | .networkError => true
  | .connectionError => true
  | .timeoutError => true
  | .storageError => true
  | _ => false

/-- `errors.New errorType message`. -/
def newErr (t : ErrorType) (msg : String) : GoError := .fsError t msg

/-- `errors.Wrap` applied to an optional cause (the Go call sites pass a
possibly-nil `lastErr`). -/
def wrapOpt (c : Option GoError) (t : ErrorType) (msg : String) : GoError :=
  match c with
  | some e => .wrapped t msg e
  | none => .fsError t msg

/-! ## Retry helper (`package retry`, retry.Do in src/main.go lines 220-279) -/

/-- One structural rendering of the loop of `retry.Do`.
`attempt` is the 1-based attempt counter of the Go `for` loop and
`remaining` the number of loop iterations still allowed
(`maxAttempts - attempt + 1`). `fn i` is the closure's result on its
`i`-th invocation (`none` = Go `nil` = success). Returns the final error
and the number of closure invocations performed. The Go context passed by
`DoSimple` is never cancelled within the modelled runs, so the two
`ctx.Done()` selects never fire. `remaining = 0` on entry is the
`MaxAttempts = 0` case, where the loop body never runs and `Do` returns
the initial `nil` `lastErr`. -/
def retryLoop (fn : Nat → Option GoError) : Nat → Nat → Option GoError × Nat
  | _, 0 => (none, 0)
  | attempt, remaining + 1 =>
    match fn attempt with
    | none => (none, 1)
    | some err =>
      if !(IsRetryable err) then (some err, 1)
      else if remaining = 0 then (some err, 1)
      else
        let r := retryLoop fn (attempt + 1) remaining
        (r.1, r.2 + 1)

/-- `retry.Do ctx config fn` with `config.MaxAttempts = maxAttempts` and a
context that is never cancelled: run the loop from attempt 1. -/
def retryDo (fn : Nat → Option GoError) (maxAttempts : Nat) : Option GoError × Nat :=
  retryLoop fn 1 maxAttempts

/-- The network error returned by a transiently failing closure. -/
def netErr : GoError := newErr .networkError "temporary failure"

/-- The validation error returned by a non-retryable closure. -/
def valErr : GoError := newErr .validationError "non-retryable error"

/-- A closure that fails with `Network` on its first `n - 1` invocations
and then succeeds (invocations are 1-based). -/
def netThenOk (n : Nat) : Nat → Option GoError :=
  fun i => if i < n then some netErr else none

/-! ## Crypto stream (crypto.go is not under src/; modelled from the spec) -/

/-- Modelled from the spec: the AES-256-CTR keystream of crypto.go, which
is not under src/. A keystream maps (key, IV, byte index) to the keystream
byte XOR-ed into the payload at that index; AES internals are opaque to
every claim below, so the keystream is a parameter of the model. -/
abbrev KeyStream := Bytes → Bytes → Nat → Nat

/-- Modelled from the spec: CTR-mode transform — XOR each payload byte
with the keystream byte at its index. Encryption and decryption are the
same transform. -/
def ctrXor (ks : KeyStream) (key iv data : Bytes) : Bytes :=
  (List.range data.length).zipWith (fun i b => Nat.xor b (ks key iv i)) data

/-- Modelled from the spec: the byte stream produced by Encrypt-and-copy
of crypto.go (not under src/) — the 16-byte random IV (here a parameter,
standing for the random draw) followed by the CTR ciphertext. -/
def encryptBytes (ks : KeyStream) (key iv data : Bytes) : Bytes :=
  iv ++ ctrXor ks key iv data

/-- Modelled from the spec: Decrypt-and-copy of crypto.go (not under
src/) — read exactly 16 bytes of IV (short read is a `CorruptionError`),
CTR-decrypt the remainder; returns the plaintext and the byte count read
from the source including the IV. -/
def copyDecrypt (ks : KeyStream) (key : Bytes) (src : Bytes) : Except GoError (Bytes × Nat) :=
  if src.length < 16 then .error (newErr .corruptionError "short IV read")
  else
    let iv := src.take 16
    .ok (ctrXor ks key iv (src.drop 16), src.length)

/-- Modelled from the spec: `hashKey` of crypto.go (not under src/) is the
hex-encoded SHA-1 digest of the raw key. SHA-1 itself is opaque to every
claim below; it is modelled as an injective tagging of the key. -/
def hashKey (key : String) : String := "sha1-hex-of:" ++ key

/-- A concrete keystream instance used by witnesses; it depends on the
key, the IV and the index, as a CTR keystream does. -/
def ksModel : KeyStream :=
  fun key iv i => (key.headD 0 + iv.headD 0 + i) % 256

/-! ## Little-endian int64 framing (encoding/binary at server.go 179, 368) -/

/-- The 8 little-endian bytes of a non-negative int64 (binary.Write). -/
def leEncode (n : Nat) : Bytes :=
  (List.range 8).map (fun i => n / 256 ^ i % 256)

/-- Decode 8 little-endian bytes to the unsigned value (binary.Read). -/
def leDecode (bs : Bytes) : Nat :=
  ((bs.take 8).reverse).foldl (fun acc b => acc * 256 + b) 0

/-- `binary.Read(peer, binary.LittleEndian, &fileSize)`: take 8 bytes off
the peer's stream; fewer than 8 available is an EOF-style read error. -/
def readLeInt64 (bs : Bytes) : Option (Nat × Bytes) :=
  if 8 ≤ bs.length then some (leDecode (bs.take 8), bs.drop 8) else none

/-- `io.LimitReader(peer, fileSize)` drained against a stream holding
`body`: the unsigned decoding `u` with the int64 sign bit set is a
negative limit, from which Go reads nothing; otherwise up to `u` bytes
are read. -/
def limitTake (u : Nat) (body : Bytes) : Bytes :=
  if u < 2 ^ 63 then body.take u else []

/-! ## Blob store (store.go is not under src/; modelled from the spec) -/

/-- Modelled from the spec: the on-disk blob store of store.go (not under
src/), keyed by `(node_id, raw_key)`; newest write first, so lookup of
the first match is last-writer-wins. -/
abbrev StoreMap := List ((String × String) × Bytes)

/-- Modelled from the spec: `Store.Read`/`Store.Has` — the current bytes
at `(id, key)`, if present. -/
def storeLookup (st : StoreMap) (id key : String) : Option Bytes :=
  match st with
  | [] => none
  | ((i, k), d) :: rest =>
    if i = id ∧ k = key then some d else storeLookup rest id key

/-- Modelled from the spec: `Store.Write` — truncate-write the bytes at
`(id, key)` and return the new store with the byte count written. -/
def storeWrite (st : StoreMap) (id key : String) (data : Bytes) : StoreMap × Nat :=
  (((id, key), data) :: st, data.length)

/-! ## Messages, wire items, peers, server state (src/server.go) -/

/-- `MessageStoreFile { ID, Key, Size }` (server.go 105-109); `Size` is a
Go `int64`. -/
structure MessageStoreFile where
  id : String
  key : String
  size : Int
deriving DecidableEq, Repr

/-- `MessageGetFile { ID, Key }` (server.go 111-114). -/
structure MessageGetFile where
  id : String
  key : String
deriving DecidableEq, Repr

/-- The gob-registered payload union of `Message` (server.go 101-103,
446-449). -/
inductive MessagePayload where
  | storeFile (m : MessageStoreFile)
  | getFile (m : MessageGetFile)
deriving DecidableEq, Repr

/-- One transmission written onto a peer connection: a single kind byte,
the gob-encoded body of a control message, or a run of raw stream bytes. -/
inductive WireItem where
  | kindByte (b : Nat)
  | msgPayload (m : MessagePayload)
  | chunk (bs : Bytes)
deriving DecidableEq, Repr

/-- `p2p.IncomingMessage` (kind byte 0x1). -/
def incomingMessage : Nat := 1

/-- `p2p.IncomingStream` (kind byte 0x2). -/
def incomingStream : Nat := 2

/-- Observable effects of a server operation: bytes written to a peer
(or the failed attempt), the fixed cooperative sleeps, and
`peer.CloseStream()` calls. -/
inductive Effect where
  | sent (addr : String) (item : WireItem)
  | sendFailed (addr : String) (item : WireItem)
  | waitMs (n : Nat)
  | closeStream (addr : String)
deriving DecidableEq, Repr

/-- A connected remote peer as the server sees it. `sendErr` gives the
outcome of writing a given item to the connection (`none` = success) —
the connection's behaviour is deterministic per item in the modelled
runs. `stream` holds the bytes this peer supplies when the server reads
from it after a stream frame. The TCP peer type itself is not under
src/; this capability record follows the spec's Peer interface. -/
structure Peer where
  addr : String
  sendErr : WireItem → Option GoError
  stream : Bytes

/-- The `FileServer` state the claims touch: node ID, encryption key,
peer registry (the Go map modelled as a list in iteration order) and the
local blob store. -/
structure FileServer where
  id : String
  encKey : Bytes
  peers : List Peer
  store : StoreMap

/-- Go `s.peers[from]`: look up a peer by remote address. -/
def findPeer (peers : List Peer) (addr : String) : Option Peer :=
  peers.find? (fun p => p.addr = addr)

/-! ## broadcast (server.go 61-99) -/

/-- The per-peer body of the broadcast loop, iterated over the registry:
send the `IncomingMessage` kind byte, then the encoded message; each
failure is logged, recorded in `lastErr` and skipped. Returns
(`lastErr` over these peers, `successCount`, effects). The combined
`lastErr` is the error of the latest failing peer, as in the Go loop. -/
def broadcastList (msg : MessagePayload) : List Peer → Option GoError × Nat × List Effect
  | [] => (none, 0, [])
  | p :: rest =>
    let hd : Option GoError × Nat × List Effect :=
      match p.sendErr (.kindByte incomingMessage) with
      | some e => (some e, 0, [.sendFailed p.addr (.kindByte incomingMessage)])
      | none =>
        match p.sendErr (.msgPayload msg) with
        | some e =>
          (some e, 0,
            [.sent p.addr (.kindByte incomingMessage), .sendFailed p.addr (.msgPayload msg)])
        | none =>
          (none, 1,
            [.sent p.addr (.kindByte incomingMessage), .sent p.addr (.msgPayload msg)])
    let tl := broadcastList msg rest
    (match tl.1 with | some e => some e | none => hd.1, hd.2.1 + tl.2.1, hd.2.2 ++ tl.2.2)

/-- `FileServer.broadcast` (server.go 61-99): encode once, loop over the
peers, and return a `NetworkError` wrapping the last per-peer error
exactly when there was at least one peer and no send succeeded. -/
def FileServer.broadcast (peers : List Peer) (msg : MessagePayload) :
    Except GoError Unit × List Effect :=
  let r := broadcastList msg peers
  if r.2.1 = 0 ∧ 0 < peers.length then
    (.error (wrapOpt r.1 .networkError "failed to broadcast to any peers"), r.2.2)
  else
    (.ok (), r.2.2)

/-- A peer fails the broadcast when its kind-byte send fails or, that
succeeding, its body send fails. -/
def peerBroadcastFails (p : Peer) (msg : MessagePayload) : Bool :=
  match p.sendErr (.kindByte incomingMessage) with
  | some _ => true
  | none => (p.sendErr (.msgPayload msg)).isSome

/-! ## replicateTopeers (server.go 248-273) -/

/-- `io.MultiWriter(peers...).Write(item)`: write the item to each peer in
order, stopping at the first failure (the remaining peers receive
nothing). -/
def multiWrite (peers : List Peer) (item : WireItem) : Option GoError × List Effect :=
  match peers with
  | [] => (none, [])
  | p :: rest =>
    match p.sendErr item with
    | some e => (some e, [.sendFailed p.addr item])
    | none =>
      let r := multiWrite rest item
      (r.1, .sent p.addr item :: r.2)

/-- `FileServer.replicateTopeers` (server.go 248-273): nothing to do with
no peers; otherwise multi-write the `IncomingStream` kind byte (failure =
`NetworkError`), then stream `copyEncrypt` output — the IV followed by
the CTR ciphertext — through the multi-writer (failure =
`EncryptionError`, folding in copyEncrypt's own wrapping). -/
def FileServer.replicateTopeers (ks : KeyStream) (encKey iv : Bytes) (peers : List Peer)
    (fileBuffer : Bytes) : Except GoError Unit × List Effect :=
  if peers.length = 0 then (.ok (), [])
  else
    match multiWrite peers (.kindByte incomingStream) with
    | (some e, effs) =>
      (.error (.wrapped .networkError "failed to send stream header" e), effs)
    | (none, effs0) =>
      match multiWrite peers (.chunk iv) with
      | (some e, effs1) =>
        (.error (.wrapped .encryptionError "failed to encrypt and send file data" e),
          effs0 ++ effs1)
      | (none, effs1) =>
        match multiWrite peers (.chunk (ctrXor ks encKey iv fileBuffer)) with
        | (some e, effs2) =>
          (.error (.wrapped .encryptionError "failed to encrypt and send file data" e),
            effs0 ++ effs1 ++ effs2)
        | (none, effs2) => (.ok (), effs0 ++ effs1 ++ effs2)

/-! ## Store (server.go 205-246) -/

/-- `FileServer.Store` (server.go 205-246): tee the reader into the local
store (plaintext), stop successfully if there are no peers, otherwise
announce `StoreFile` with `Size = size + 16` (broadcast failures are
logged and swallowed), sleep 5 ms, and replicate the buffered plaintext
to every peer. `iv` stands for the random IV drawn inside copyEncrypt.
Returns (result, new local store, effects). -/
def FileServer.Store (ks : KeyStream) (iv : Bytes) (s : FileServer) (key : String)
    (data : Bytes) : Except GoError Unit × StoreMap × List Effect :=
  let w := storeWrite s.store s.id key data
  if s.peers.length = 0 then (.ok (), w.1, [])
  else
    let msg := MessagePayload.storeFile
      { id := s.id, key := hashKey key, size := (w.2 : Int) + 16 }
    let b := FileServer.broadcast s.peers msg
    let r := FileServer.replicateTopeers ks s.encKey iv s.peers data
    (r.1, w.1, b.2 ++ [Effect.waitMs 5] ++ r.2)

/-! ## fetchFileFromNetwork and Get (server.go 116-203) -/

/-- The per-peer loop of `fetchFileFromNetwork` (server.go 174-202):
read a little-endian int64 size off the peer (a short stream is an EOF
read error, logged, no CloseStream), drain `io.LimitReader(peer, size)`
through `Store.WriteDecrypt`; a decrypt failure closes the stream and
moves on, success closes the stream and returns the updated store. When
every peer failed, return the last error, or a `NetworkError` if no peer
was even attempted. -/
def fetchLoop (ks : KeyStream) (encKey : Bytes) (sid key : String) (st : StoreMap)
    (lastErr : Option GoError) : List Peer → Except GoError StoreMap × List Effect
  | [] =>
    (match lastErr with
     | some e => .error e
     | none => .error (newErr .networkError "no peers provided the requested file"), [])
  | p :: rest =>
    match readLeInt64 p.stream with
    | none => fetchLoop ks encKey sid key st (some (GoError.plain "EOF")) rest
    | some (u, body) =>
      match copyDecrypt ks encKey (limitTake u body) with
      | .error e =>
        let r := fetchLoop ks encKey sid key st (some e) rest
        (r.1, Effect.closeStream p.addr :: r.2)
      | .ok (plain, _) =>
        (.ok (storeWrite st sid key plain).1, [Effect.closeStream p.addr])

/-- `FileServer.fetchFileFromNetwork` (server.go 147-203): with no peers,
a `NetworkError`; else broadcast `GetFile { ID := own id, Key := hashed
key }`, sleep 500 ms (the 10-second context never wins the select against
the 500 ms timer), and run the per-peer receive loop. -/
def FileServer.fetchFileFromNetwork (ks : KeyStream) (s : FileServer) (key : String) :
    Except GoError StoreMap × List Effect :=
  if s.peers.length = 0 then
    (.error (newErr .networkError "no peers available for file retrieval"), [])
  else
    let msg := MessagePayload.getFile { id := s.id, key := hashKey key }
    match FileServer.broadcast s.peers msg with
    | (.error e, effs) => (.error e, effs)
    | (.ok _, effs) =>
      let r := fetchLoop ks s.encKey s.id key s.store none s.peers
      (r.1, effs ++ [Effect.waitMs 500] ++ r.2)

/-- `FileServer.Get` (server.go 116-145): serve a local hit from the
store; otherwise run the network fetch under `retry.DoSimple`
(3 attempts; the fetch is deterministic on an unchanged store, so every
attempt returns the first attempt's error and the wrapped final error is
that error), then read the fetched file back from the store. -/
def FileServer.Get (ks : KeyStream) (s : FileServer) (key : String) :
    Except GoError Bytes × StoreMap × List Effect :=
  match storeLookup s.store s.id key with
  | some data => (.ok data, s.store, [])
  | none =>
    match FileServer.fetchFileFromNetwork ks s key with
    | (.ok st, effs) =>
      match storeLookup st s.id key with
      | some data => (.ok data, st, effs)
      | none =>
        (.error (.fsError .storageError "failed to read file after network fetch"), st, effs)
    | (.error e, effs) =>
      let attempts := (retryDo (fun _ => some e) 3).2
      (.error (.wrapped .networkError "failed to fetch file from network" e), s.store,
        List.flatten (List.replicate attempts effs))

/-! ## Message handlers (server.go 335-398) -/

/-- `FileServer.handleMessageGetFile` (server.go 335-379): a key absent
from the store is a `FileNotFoundError` with nothing written to the peer;
otherwise look the requesting peer up, send the `IncomingStream` kind
byte, the file size as little-endian int64, and the file bytes (each send
failure is a `NetworkError`). -/
def FileServer.handleMessageGetFile (s : FileServer) (from_ : String) (msg : MessageGetFile) :
    Except GoError Unit × List Effect :=
  match storeLookup s.store msg.id msg.key with
  | none => (.error (newErr .fileNotFoundError ("file not found: " ++ msg.key)), [])
  | some data =>
    match findPeer s.peers from_ with
    | none => (.error (newErr .connectionError ("peer " ++ from_ ++ " not found")), [])
    | some p =>
      match p.sendErr (.kindByte incomingStream) with
      | some e =>
        (.error (.wrapped .networkError "failed to send stream header" e),
          [.sendFailed from_ (.kindByte incomingStream)])
      | none =>
        match p.sendErr (.chunk (leEncode data.length)) with
        | some e =>
          (.error (.wrapped .networkError "failed to send file size" e),
            [.sent from_ (.kindByte incomingStream),
             .sendFailed from_ (.chunk (leEncode data.length))])
        | none =>
          match p.sendErr (.chunk data) with
          | some e =>
            (.error (.wrapped .networkError "failed to send file data" e),
              [.sent from_ (.kindByte incomingStream),
               .sent from_ (.chunk (leEncode data.length)),
               .sendFailed from_ (.chunk data)])
          | none =>
            (.ok (),
              [.sent from_ (.kindByte incomingStream),
               .sent from_ (.chunk (leEncode data.length)),
               .sent from_ (.chunk data)])

/-- `FileServer.handleMessageStoreFile` (server.go 381-398): look the
sending peer up (absence is a `ConnectionError`), copy
`io.LimitReader(peer, msg.Size)` through the plain `Store.Write` path —
the bytes land on disk as received, with no decryption — and call
`peer.CloseStream()`. A negative `Size` reads nothing, as `LimitReader`
does. -/
def FileServer.handleMessageStoreFile (s : FileServer) (from_ : String)
    (msg : MessageStoreFile) : Except GoError StoreMap × List Effect :=
  match findPeer s.peers from_ with
  | none => (.error (newErr .connectionError ("peer " ++ from_ ++ " not found")), [])
  | some p =>
    (.ok (storeWrite s.store msg.id msg.key (p.stream.take msg.size.toNat)).1,
      [Effect.closeStream from_])

/-! ## Stop (server.go 275-278) -/

/-- The lifecycle state `Stop` touches: whether `s.quitch` has already
been closed. -/
structure ServerLifecycle where
  quitchClosed : Bool
deriving DecidableEq, Repr

/-- `FileServer.Stop` (server.go 275-278) runs `close(s.quitch)`. Per the
Go language semantics, closing an already-closed channel is a run-time
panic, modelled as `none`; otherwise the channel becomes closed, which is
the signal the message loop's select quits on. -/
def StopOp (st : ServerLifecycle) : Option ServerLifecycle :=
  if st.quitchClosed then none else some { quitchClosed := true }

/-! ## General lemmas -/

/-- CTR keeps the payload length. -/
theorem ctrXor_length (ks : KeyStream) (key iv data : Bytes) :
    (ctrXor ks key iv data).length = data.length := by
  simp [ctrXor]

/-- `errors.Wrap` stamps the requested type whatever the cause. -/
theorem GetType_wrapOpt (c : Option GoError) (t : ErrorType) (m : String) :
    GetType (wrapOpt c t m) = t := by
  cases c <;> rfl

/-- Writing then looking the same slot up yields the written bytes. -/
theorem storeLookup_storeWrite (st : StoreMap) (id key : String) (data : Bytes) :
    storeLookup (storeWrite st id key data).1 id key = some data := by
  simp [storeWrite, storeLookup]

/-! ## C1 — data rot on the encrypted fetch path -/

/-- The plaintext blob the origin node stores. -/
def rotPlain : Bytes :=
  [1, 2, 3, 4, 5, 6, 7, 8, 9, 10, 11, 12, 13, 14, 15, 16, 17, 18, 19, 20]

/-- The origin node's encryption key (32 bytes). -/
def rotKeyA : Bytes := List.replicate 32 0

/-- The fetching node's encryption key (32 bytes) — node IDs can
coincide while keys differ, since keys are never exchanged. -/
def rotKeyC : Bytes := List.replicate 32 5

/-- The random IV drawn by the origin's replication encrypt. -/
def rotIV : Bytes := List.replicate 16 7

/-- The CTR ciphertext the origin pushes (after the IV). -/
def rotCipher : Bytes := ctrXor ksModel rotKeyA rotIV rotPlain

/-- Origin server A (node id `node1`, key `rotKeyA`), one peer B. -/
def rotServerA : FileServer :=
  { id := "node1", encKey := rotKeyA,
    peers := [{ addr := "B", sendErr := fun _ => none, stream := [] }], store := [] }

/-- Replica server B while ingesting A's replication stream. -/
def rotServerB : FileServer :=
  { id := "B-id", encKey := [9],
    peers := [{ addr := "A", sendErr := fun _ => none, stream := rotIV ++ rotCipher }],
    store := [] }

/-- Replica server B after ingestion, now serving requester C. -/
def rotServerB2 : FileServer :=
  { id := "B-id", encKey := [9],
    peers := [{ addr := "C", sendErr := fun _ => none, stream := [] }],
    store := [(("node1", hashKey "f"), rotIV ++ rotCipher)] }

/-- Requester C: same node id as the origin (so B's lookup under
`(msg.ID, hashed key)` hits the replica), but its own key `rotKeyC`. -/
def rotServerC : FileServer :=
  { id := "node1", encKey := rotKeyC,
    peers := [{ addr := "B", sendErr := fun _ => none,
                stream := leEncode 36 ++ (rotIV ++ rotCipher) }],
    store := [] }

/-- What C's `Get` actually yields: B's ciphertext decrypted with C's
own key. -/
def rotFetched : Bytes := ctrXor ksModel rotKeyC rotIV rotCipher

/-- C1 (code bug at a failing input): the full pipeline, evaluated.
A stores `rotPlain` (kept in plaintext locally) and replicates
`rotIV ++ rotCipher` to B, announcing size 36; B ingests the 36
ciphertext bytes verbatim; B serves them to C with the size header; C's
`Get` succeeds — and returns `rotFetched`, which differs from the bytes
the origin wrote locally, because C decrypts with its own key (no key
exchange exists). -/
theorem encrypted_path_data_rot :
    (FileServer.Store ksModel rotIV rotServerA "f" rotPlain).1 = .ok () ∧
    storeLookup (FileServer.Store ksModel rotIV rotServerA "f" rotPlain).2.1 "node1" "f"
      = some rotPlain ∧
    (FileServer.Store ksModel rotIV rotServerA "f" rotPlain).2.2 =
      [.sent "B" (.kindByte incomingMessage),
       .sent "B" (.msgPayload (.storeFile { id := "node1", key := hashKey "f", size := 36 })),
       .waitMs 5,
       .sent "B" (.kindByte incomingStream),
       .sent "B" (.chunk rotIV),
       .sent "B" (.chunk rotCipher)] ∧
    FileServer.handleMessageStoreFile rotServerB "A"
        { id := "node1", key := hashKey "f", size := 36 } =
      (.ok [(("node1", hashKey "f"), rotIV ++ rotCipher)], [.closeStream "A"]) ∧
    FileServer.handleMessageGetFile rotServerB2 "C" { id := "node1", key := hashKey "f" } =
      (.ok (), [.sent "C" (.kindByte incomingStream),
                .sent "C" (.chunk (leEncode 36)),
                .sent "C" (.chunk (rotIV ++ rotCipher))]) ∧
    (FileServer.Get ksModel rotServerC "f").1 = .ok rotFetched ∧
    rotFetched ≠ rotPlain := by
  refine ⟨rfl, rfl, rfl, rfl, rfl, rfl, by decide⟩

/-! ## C2 — broadcast and replication error policy -/

/-- A multi-write succeeds exactly when every peer accepts the item. -/
theorem multiWrite_fst_eq_none (item : WireItem) :
    ∀ ps : List Peer, (multiWrite ps item).1 = none ↔ ∀ p ∈ ps, p.sendErr item = none := by
  intro ps
  induction ps with
  | nil => simp [multiWrite]
  | cons p rest ih =>
    cases hp : p.sendErr item with
    | some e => simp [multiWrite, hp]
    | none => simp [multiWrite, hp, ih]

/-- The broadcast loop reaches zero successes exactly when every peer
fails its header or body send. -/
theorem broadcastList_succ_zero (msg : MessagePayload) :
    ∀ ps : List Peer,
      ((broadcastList msg ps).2.1 = 0 ↔ ∀ p ∈ ps, peerBroadcastFails p msg = true) := by
  intro ps
  induction ps with
  | nil => simp [broadcastList]
  | cons p rest ih =>
    cases hp1 : p.sendErr (.kindByte incomingMessage) with
    | some e => simp [broadcastList, peerBroadcastFails, hp1, ih]
    | none =>
      cases hp2 : p.sendErr (.msgPayload msg) with
      | some e => simp [broadcastList, peerBroadcastFails, hp1, hp2, ih]
      | none => simp [broadcastList, peerBroadcastFails, hp1, hp2]

/-- With at least one connected peer, `broadcast` returns success exactly
when some peer received both sends. -/
theorem broadcast_ok_iff (peers : List Peer) (msg : MessagePayload) (hne : peers ≠ []) :
    ((FileServer.broadcast peers msg).1 = .ok () ↔
      ∃ p ∈ peers, peerBroadcastFails p msg = false) := by
  have hlen : 0 < peers.length := List.length_pos.mpr hne
  by_cases h : (broadcastList msg peers).2.1 = 0
  · have hall := (broadcastList_succ_zero msg peers).mp h
    have hbr : (FileServer.broadcast peers msg).1 =
        .error (wrapOpt (broadcastList msg peers).1 .networkError
          "failed to broadcast to any peers") := by
      simp [FileServer.broadcast, h, hlen]
    rw [hbr]
    refine iff_of_false (by simp) ?_
    rintro ⟨p, hp, hf⟩
    rw [hall p hp] at hf
    simp at hf
  · have hbr : (FileServer.broadcast peers msg).1 = .ok () := by
      simp [FileServer.broadcast, h]
    rw [hbr]
    refine iff_of_true rfl ?_
    have hnall : ¬ ∀ p ∈ peers, peerBroadcastFails p msg = true := fun hall =>
      h ((broadcastList_succ_zero msg peers).mpr hall)
    push_neg at hnall
    obtain ⟨p, hp, hf⟩ := hnall
    exact ⟨p, hp, by simpa using hf⟩

/-- `replicateTopeers` over a non-empty registry succeeds exactly when
every peer accepts all three multi-writes — the stream header, the IV and
the ciphertext; the first refusal aborts the whole replication. -/
theorem replicate_ok_iff (ks : KeyStream) (encKey iv data : Bytes) (peers : List Peer)
    (hne : peers ≠ []) :
    ((FileServer.replicateTopeers ks encKey iv peers data).1 = .ok () ↔
      ∀ p ∈ peers, p.sendErr (.kindByte incomingStream) = none ∧
        p.sendErr (.chunk iv) = none ∧
        p.sendErr (.chunk (ctrXor ks encKey iv data)) = none) := by
  have hlen : ¬ peers.length = 0 := fun h => hne (List.length_eq_zero.mp h)
  have hA := multiWrite_fst_eq_none (.kindByte incomingStream) peers
  have hB := multiWrite_fst_eq_none (.chunk iv) peers
  have hC := multiWrite_fst_eq_none (.chunk (ctrXor ks encKey iv data)) peers
  unfold FileServer.replicateTopeers
  rw [if_neg hlen]
  rcases h1 : multiWrite peers (.kindByte incomingStream) with ⟨r1, e1⟩
  rw [h1] at hA
  cases r1 with
  | some e =>
    refine iff_of_false (by simp) ?_
    intro hall
    have hcon : (some e : Option GoError) = none := hA.mpr fun p hp => (hall p hp).1
    simp at hcon
  | none =>
    rcases h2 : multiWrite peers (.chunk iv) with ⟨r2, e2⟩
    rw [h2] at hB
    cases r2 with
    | some e =>
      refine iff_of_false (by simp) ?_
      intro hall
      have hcon : (some e : Option GoError) = none := hB.mpr fun p hp => (hall p hp).2.1
      simp at hcon
    | none =>
      rcases h3 : multiWrite peers (.chunk (ctrXor ks encKey iv data)) with ⟨r3, e3⟩
      rw [h3] at hC
      cases r3 with
      | some e =>
        refine iff_of_false (by simp) ?_
        intro hall
        have hcon : (some e : Option GoError) = none := hC.mpr fun p hp => (hall p hp).2.2
        simp at hcon
      | none =>
        refine iff_of_true rfl fun p hp => ?_
        exact ⟨hA.mp rfl p hp, hB.mp rfl p hp, hC.mp rfl p hp⟩

/-- C2 counterexample: replication does not swallow an individual peer
failure — with one broken peer and one healthy peer, `replicateTopeers`
returns a `Network` error (the multi-writer aborts on the broken peer's
stream-header write) even though the healthy peer accepts every write,
so a partial failure is an error, contrary to the claim. -/
theorem replicate_partial_failure_is_error :
    (FileServer.replicateTopeers ksModel [0] (List.replicate 16 0)
        [{ addr := "bad", sendErr := fun _ => some netErr, stream := [] },
         { addr := "good", sendErr := fun _ => none, stream := [] }] [1, 2, 3]).1 =
      .error (.wrapped .networkError "failed to send stream header" netErr) ∧
    (∀ item, ({ addr := "good", sendErr := fun _ => none, stream := [] } : Peer).sendErr
      item = none) :=
  ⟨rfl, fun _ => rfl⟩

/-- C2 amended: during broadcast, per-peer send failures are swallowed
and the operation fails — with kind `Network` — exactly when every
connected peer failed; during replication, however, the multi-writer
aborts at the first failing peer, so replication succeeds exactly when
every peer accepts the header, the IV and the ciphertext writes (a
partial failure already aborts it). -/
theorem broadcast_replicate_error_policy (ks : KeyStream) (encKey iv data : Bytes)
    (peers : List Peer) (msg : MessagePayload) (hne : peers ≠ []) :
    ((FileServer.broadcast peers msg).1 = .ok () ↔
      ∃ p ∈ peers, peerBroadcastFails p msg = false) ∧
    (∀ e, (FileServer.broadcast peers msg).1 = .error e → GetType e = .networkError) ∧
    ((FileServer.replicateTopeers ks encKey iv peers data).1 = .ok () ↔
      ∀ p ∈ peers, p.sendErr (.kindByte incomingStream) = none ∧
        p.sendErr (.chunk iv) = none ∧
        p.sendErr (.chunk (ctrXor ks encKey iv data)) = none) := by
  refine ⟨broadcast_ok_iff peers msg hne, ?_, replicate_ok_iff ks encKey iv data peers hne⟩
  intro e he
  by_cases h : (broadcastList msg peers).2.1 = 0
  · have hbr : (FileServer.broadcast peers msg).1 =
        .error (wrapOpt (broadcastList msg peers).1 .networkError
          "failed to broadcast to any peers") := by
      simp [FileServer.broadcast, h, List.length_pos.mpr hne]
    rw [hbr] at he
    cases he
    exact GetType_wrapOpt _ _ _
  · have hbr : (FileServer.broadcast peers msg).1 = .ok () := by
      simp [FileServer.broadcast, h]
    rw [hbr] at he
    cases he

/-- C2 witness: a single healthy peer — broadcast succeeds (some peer did
not fail) and replication succeeds (every peer accepted every write). -/
theorem broadcast_replicate_error_policy_witness :
    ((FileServer.broadcast
        [{ addr := "good", sendErr := fun _ => none, stream := [] }]
        (.getFile { id := "n1", key := "k" })).1 = .ok () ↔
      ∃ p ∈ [({ addr := "good", sendErr := fun _ => none, stream := [] } : Peer)],
        peerBroadcastFails p (.getFile { id := "n1", key := "k" }) = false) ∧
    (∀ e, (FileServer.broadcast
        [{ addr := "good", sendErr := fun _ => none, stream := [] }]
        (.getFile { id := "n1", key := "k" })).1 = .error e →
      GetType e = .networkError) ∧
    ((FileServer.replicateTopeers ksModel [0] (List.replicate 16 0)
        [{ addr := "good", sendErr := fun _ => none, stream := [] }] [1, 2, 3]).1 =
        .ok () ↔
      ∀ p ∈ [({ addr := "good", sendErr := fun _ => none, stream := [] } : Peer)],
        p.sendErr (.kindByte incomingStream) = none ∧
        p.sendErr (.chunk (List.replicate 16 0)) = none ∧
        p.sendErr (.chunk (ctrXor ksModel [0] (List.replicate 16 0) [1, 2, 3])) = none) :=
  broadcast_replicate_error_policy ksModel [0] (List.replicate 16 0) [1, 2, 3]
    [{ addr := "good", sendErr := fun _ => none, stream := [] }]
    (.getFile { id := "n1", key := "k" }) (List.cons_ne_nil _ _)

/-! ## C3 — retry policy -/

/-- Running the retry loop against `netThenOk n` starting at attempt `a`
with exactly the remaining budget `n + 1 - a` succeeds after all
remaining invocations. -/
theorem retryLoop_net (n : Nat) :
    ∀ (r a : Nat), a + r = n + 1 → retryLoop (netThenOk n) a r = (none, r) := by
  intro r
  induction r with
  | zero => intro a _; rfl
  | succ k ih =>
    intro a ha
    by_cases hlt : a < n
    · have hfn : netThenOk n a = some netErr := by simp [netThenOk, hlt]
      have hre : IsRetryable netErr = true := rfl
      have hk0 : ¬ (k = 0) := by omega
      simp [retryLoop, hfn, hre, hk0, ih (a + 1) (by omega)]
    · have hfn : netThenOk n a = none := by
        simp only [netThenOk, ite_eq_right_iff]
        intro h; exact absurd h hlt
      simp [retryLoop, hfn]
      omega

/-- C3: for a closure failing with a `Network` error on its first `n − 1`
invocations and then succeeding, `retry.Do` with `MaxAttempts = n`
returns success after exactly `n` invocations; for a closure always
failing with a `Validation` error, the closure is invoked exactly once
regardless of the (positive) attempt budget and the original error is
returned. -/
theorem retry_policy (n m : Nat) (hm : 1 ≤ m) :
    retryDo (netThenOk n) n = (none, n) ∧
    retryDo (fun _ => some valErr) m = (some valErr, 1) := by
  constructor
  · exact retryLoop_net n n 1 (by omega)
  · obtain ⟨k, rfl⟩ : ∃ k, m = k + 1 := ⟨m - 1, by omega⟩
    have hval : IsRetryable valErr = false := rfl
    simp [retryDo, retryLoop, hval]

/-- C3 witness: the spec's literal scenarios — `Network` twice then
success under `max = 3` gives success at attempt 3, and a `Validation`
closure under `max = 5` is invoked once. -/
theorem retry_policy_witness :
    retryDo (netThenOk 3) 3 = (none, 3) ∧
    retryDo (fun _ => some valErr) 5 = (some valErr, 1) :=
  retry_policy 3 5 (by decide)

/-! ## C4 — Get with no peers and a local miss -/

/-- C4: on a single node with no connected peers, `Get` of a key absent
from the local store returns an error of kind `Network`. -/
theorem get_no_peers_network_error (ks : KeyStream) (s : FileServer) (key : String)
    (hp : s.peers = []) (hm : storeLookup s.store s.id key = none) :
    ∃ e, (FileServer.Get ks s key).1 = .error e ∧ GetType e = .networkError := by
  refine ⟨.wrapped .networkError "failed to fetch file from network"
      (newErr .networkError "no peers available for file retrieval"), ?_, rfl⟩
  simp [FileServer.Get, FileServer.fetchFileFromNetwork, hp, hm, newErr]

/-- C4 witness: a concrete peerless node misses `nope.txt` locally and
`Get` surfaces a `Network` error. -/
theorem get_no_peers_network_error_witness :
    ∃ e, (FileServer.Get ksModel
        { id := "n1", encKey := [], peers := [], store := [] } "nope.txt").1 = .error e ∧
      GetType e = .networkError :=
  get_no_peers_network_error ksModel
    { id := "n1", encKey := [], peers := [], store := [] } "nope.txt" rfl rfl

/-! ## C5 — the announced StoreFile size -/

/-- `broadcast` emits the effect trace of its peer loop in both the
error and the success case. -/
theorem broadcast_effects (peers : List Peer) (msg : MessagePayload) :
    (FileServer.broadcast peers msg).2 = (broadcastList msg peers).2.2 := by
  by_cases h : (broadcastList msg peers).2.1 = 0 ∧ 0 < peers.length <;>
    simp [FileServer.broadcast, h]

/-- Every control-message body appearing in the broadcast loop's effect
trace is the broadcast message itself. -/
theorem broadcastList_payload (msg : MessagePayload) :
    ∀ (ps : List Peer) (a : String) (m' : MessagePayload),
      (Effect.sent a (.msgPayload m') ∈ (broadcastList msg ps).2.2 ∨
       Effect.sendFailed a (.msgPayload m') ∈ (broadcastList msg ps).2.2) → m' = msg := by
  intro ps
  induction ps with
  | nil => intro a m' h; simp [broadcastList] at h
  | cons p rest ih =>
    intro a m' h
    cases hp1 : p.sendErr (.kindByte incomingMessage) with
    | some e =>
      simp only [broadcastList, hp1, List.cons_append, List.nil_append, List.mem_cons,
        List.mem_append] at h
      rcases h with (h | h) | (h | h)
      · cases h
      · exact ih a m' (Or.inl h)
      · cases h
      · exact ih a m' (Or.inr h)
    | none =>
      cases hp2 : p.sendErr (.msgPayload msg) with
      | some e =>
        simp only [broadcastList, hp1, hp2, List.cons_append, List.nil_append, List.mem_cons,
          List.mem_append] at h
        rcases h with (h | h | h) | (h | h | h)
        · cases h
        · cases h
        · exact ih a m' (Or.inl h)
        · cases h
        · cases h; rfl
        · exact ih a m' (Or.inr h)
      | none =>
        simp only [broadcastList, hp1, hp2, List.cons_append, List.nil_append, List.mem_cons,
          List.mem_append] at h
        rcases h with (h | h | h) | (h | h | h)
        · cases h
        · cases h; rfl
        · exact ih a m' (Or.inl h)
        · cases h
        · cases h
        · exact ih a m' (Or.inr h)

/-- Every effect the multi-writer emits carries the written item. -/
theorem multiWrite_effects (item : WireItem) :
    ∀ (ps : List Peer) (e : Effect), e ∈ (multiWrite ps item).2 →
      (∃ a, e = .sent a item) ∨ (∃ a, e = .sendFailed a item) := by
  intro ps
  induction ps with
  | nil => intro e he; simp [multiWrite] at he
  | cons p rest ih =>
    intro e he
    cases hp : p.sendErr item with
    | some err =>
      simp only [multiWrite, hp, List.mem_singleton] at he
      exact Or.inr ⟨p.addr, he⟩
    | none =>
      simp only [multiWrite, hp, List.mem_cons] at he
      rcases he with rfl | he
      · exact Or.inl ⟨p.addr, rfl⟩
      · exact ih e he

/-- Replication writes only the stream kind byte and raw chunks — never
a control-message body. -/
theorem replicate_effects_shape (ks : KeyStream) (encKey iv data : Bytes)
    (peers : List Peer) :
    ∀ e ∈ (FileServer.replicateTopeers ks encKey iv peers data).2,
      (∃ a b, e = .sent a (.kindByte b)) ∨ (∃ a b, e = .sendFailed a (.kindByte b)) ∨
      (∃ a bs, e = .sent a (.chunk bs)) ∨ (∃ a bs, e = .sendFailed a (.chunk bs)) := by
  have shape1 := multiWrite_effects (.kindByte incomingStream) peers
  have shape2 := multiWrite_effects (.chunk iv) peers
  have shape3 := multiWrite_effects (.chunk (ctrXor ks encKey iv data)) peers
  unfold FileServer.replicateTopeers
  by_cases hl : peers.length = 0
  · rw [if_pos hl]; intro e he; simp at he
  · rw [if_neg hl]
    rcases h1 : multiWrite peers (.kindByte incomingStream) with ⟨r1, e1⟩
    rw [h1] at shape1
    cases r1 with
    | some err =>
      intro e he
      rcases shape1 e he with ⟨a, rfl⟩ | ⟨a, rfl⟩
      · exact Or.inl ⟨a, _, rfl⟩
      · exact Or.inr (Or.inl ⟨a, _, rfl⟩)
    | none =>
      rcases h2 : multiWrite peers (.chunk iv) with ⟨r2, e2⟩
      rw [h2] at shape2
      cases r2 with
      | some err =>
        intro e he
        rcases List.mem_append.mp he with he | he
        · rcases shape1 e he with ⟨a, rfl⟩ | ⟨a, rfl⟩
          · exact Or.inl ⟨a, _, rfl⟩
          · exact Or.inr (Or.inl ⟨a, _, rfl⟩)
        · rcases shape2 e he with ⟨a, rfl⟩ | ⟨a, rfl⟩
          · exact Or.inr (Or.inr (Or.inl ⟨a, _, rfl⟩))
          · exact Or.inr (Or.inr (Or.inr ⟨a, _, rfl⟩))
      | none =>
        rcases h3 : multiWrite peers (.chunk (ctrXor ks encKey iv data)) with ⟨r3, e3⟩
        rw [h3] at shape3
        have final : ∀ e, e ∈ e1 ++ e2 ++ e3 →
            (∃ a b, e = Effect.sent a (.kindByte b)) ∨
            (∃ a b, e = Effect.sendFailed a (.kindByte b)) ∨
            (∃ a bs, e = Effect.sent a (.chunk bs)) ∨
            (∃ a bs, e = Effect.sendFailed a (.chunk bs)) := by
          intro e he
          rcases List.mem_append.mp he with he | he
          · rcases List.mem_append.mp he with he | he
            · rcases shape1 e he with ⟨a, rfl⟩ | ⟨a, rfl⟩
              · exact Or.inl ⟨a, _, rfl⟩
              · exact Or.inr (Or.inl ⟨a, _, rfl⟩)
            · rcases shape2 e he with ⟨a, rfl⟩ | ⟨a, rfl⟩
              · exact Or.inr (Or.inr (Or.inl ⟨a, _, rfl⟩))
              · exact Or.inr (Or.inr (Or.inr ⟨a, _, rfl⟩))
          · rcases shape3 e he with ⟨a, rfl⟩ | ⟨a, rfl⟩
            · exact Or.inr (Or.inr (Or.inl ⟨a, _, rfl⟩))
            · exact Or.inr (Or.inr (Or.inr ⟨a, _, rfl⟩))
        cases r3 with
        | some err => exact final
        | none => exact final

/-- Any control-message body appearing in `Store`'s effect trace is the
`StoreFile` announcement built from the local write. -/
theorem store_payload_msg (ks : KeyStream) (iv : Bytes) (s : FileServer) (key : String)
    (data : Bytes) (hl : ¬ s.peers.length = 0) :
    ∀ (a : String) (m' : MessagePayload),
      (Effect.sent a (.msgPayload m') ∈ (FileServer.Store ks iv s key data).2.2 ∨
       Effect.sendFailed a (.msgPayload m') ∈ (FileServer.Store ks iv s key data).2.2) →
      m' = .storeFile
        { id := s.id, key := hashKey key,
          size := ((storeWrite s.store s.id key data).2 : Int) + 16 } := by
  have heff : (FileServer.Store ks iv s key data).2.2 =
      (FileServer.broadcast s.peers (.storeFile
        { id := s.id, key := hashKey key,
          size := ((storeWrite s.store s.id key data).2 : Int) + 16 })).2
      ++ [Effect.waitMs 5]
      ++ (FileServer.replicateTopeers ks s.encKey iv s.peers data).2 := by
    simp [FileServer.Store, hl, storeWrite]
  rw [heff]
  intro a m' h
  rcases h with h | h
  · rcases List.mem_append.mp h with h2 | h2
    · rcases List.mem_append.mp h2 with h3 | h3
      · rw [broadcast_effects] at h3
        exact broadcastList_payload _ s.peers a m' (Or.inl h3)
      · simp at h3
    · have hs := replicate_effects_shape ks s.encKey iv data s.peers _ h2
      rcases hs with ⟨x, y, hx⟩ | ⟨x, y, hx⟩ | ⟨x, y, hx⟩ | ⟨x, y, hx⟩ <;> simp at hx
  · rcases List.mem_append.mp h with h2 | h2
    · rcases List.mem_append.mp h2 with h3 | h3
      · rw [broadcast_effects] at h3
        exact broadcastList_payload _ s.peers a m' (Or.inr h3)
      · simp at h3
    · have hs := replicate_effects_shape ks s.encKey iv data s.peers _ h2
      rcases hs with ⟨x, y, hx⟩ | ⟨x, y, hx⟩ | ⟨x, y, hx⟩ | ⟨x, y, hx⟩ <;> simp at hx

/-- C5: every `StoreFile` message announced by `Store` — whether the send
to a given peer succeeded or failed — carries `Size` equal to the byte
count of the local write plus 16, which is exactly the length of the
encrypted replication stream including its 16-byte IV. -/
theorem storefile_size_field (ks : KeyStream) (iv : Bytes) (s : FileServer) (key : String)
    (data : Bytes) (a : String) (msg' : MessageStoreFile)
    (hiv : iv.length = 16)
    (hmem : Effect.sent a (.msgPayload (.storeFile msg')) ∈
        (FileServer.Store ks iv s key data).2.2 ∨
      Effect.sendFailed a (.msgPayload (.storeFile msg')) ∈
        (FileServer.Store ks iv s key data).2.2) :
    msg'.size = ((storeWrite s.store s.id key data).2 : Int) + 16 ∧
    msg'.size = ((encryptBytes ks s.encKey iv data).length : Int) := by
  by_cases hl : s.peers.length = 0
  · have hnil : (FileServer.Store ks iv s key data).2.2 = [] := by
      simp [FileServer.Store, hl]
    rw [hnil] at hmem
    simp at hmem
  · have hmsg := store_payload_msg ks iv s key data hl a (.storeFile msg') hmem
    injection hmsg with h'
    subst h'
    refine ⟨rfl, ?_⟩
    simp [encryptBytes, ctrXor_length, hiv, storeWrite]
    omega

/-- C5 witness: storing three bytes on a node with one healthy peer
announces `StoreFile` with `Size = 19 = 3 + 16`, and 19 is the encrypted
stream's length including the IV. -/
theorem storefile_size_field_witness :
    ({ id := "n1", key := hashKey "k", size := (19 : Int) } : MessageStoreFile).size =
      ((storeWrite ([] : StoreMap) "n1" "k" [1, 2, 3]).2 : Int) + 16 ∧
    ({ id := "n1", key := hashKey "k", size := (19 : Int) } : MessageStoreFile).size =
      ((encryptBytes ksModel [9] (List.replicate 16 0) [1, 2, 3]).length : Int) :=
  storefile_size_field ksModel (List.replicate 16 0)
    { id := "n1", encKey := [9],
      peers := [{ addr := "good", sendErr := fun _ => none, stream := [] }],
      store := [] }
    "k" [1, 2, 3] "good" { id := "n1", key := hashKey "k", size := (19 : Int) }
    (by decide) (Or.inl (by decide))

/-! ## C6 — Get on a local miss -/

/-- A peer satisfies the fetch loop when its stream yields a size header
and enough bytes for the IV of the decrypt step. -/
def peerFetchOk (p : Peer) : Bool :=
  match readLeInt64 p.stream with
  | none => false
  | some (u, body) => 16 ≤ (limitTake u body).length

/-- The fetch loop skips every failing peer — emitting `CloseStream`
exactly for those whose size header was readable — and returns on the
first peer whose response decrypts, with the decrypted payload written
to the store and that peer's stream closed. -/
theorem fetchLoop_first_success (ks : KeyStream) (encKey : Bytes) (sid key : String)
    (st : StoreMap) (p : Peer) (n : Nat) (body : Bytes)
    (hp : readLeInt64 p.stream = some (n, body)) (hn : n < 2 ^ 63) (hnb : n ≤ body.length)
    (h16 : 16 ≤ n) :
    ∀ ps1 : List Peer, (∀ q ∈ ps1, peerFetchOk q = false) →
      ∀ (ps2 : List Peer) (lastErr : Option GoError),
      fetchLoop ks encKey sid key st lastErr (ps1 ++ p :: ps2) =
        (.ok (storeWrite st sid key
            (ctrXor ks encKey ((body.take n).take 16) ((body.take n).drop 16))).1,
          ps1.flatMap (fun q =>
            if (readLeInt64 q.stream).isSome then [Effect.closeStream q.addr] else [])
          ++ [Effect.closeStream p.addr]) := by
  intro ps1
  induction ps1 with
  | nil =>
    intro _ ps2 lastErr
    have hlim : limitTake n body = body.take n := by
      unfold limitTake
      rw [if_pos hn]
    have hlen : ¬ (body.take n).length < 16 := by
      simp only [List.length_take]
      omega
    have hdec : copyDecrypt ks encKey (body.take n) =
        .ok (ctrXor ks encKey ((body.take n).take 16) ((body.take n).drop 16),
          (body.take n).length) := by
      unfold copyDecrypt
      rw [if_neg hlen]
    simp only [List.nil_append, fetchLoop, hp, hlim, hdec, List.flatMap_nil]
  | cons q ps1' ih =>
    intro hskip ps2 lastErr
    have hq := hskip q (List.mem_cons_self q ps1')
    have hrest : ∀ r ∈ ps1', peerFetchOk r = false := fun r hr =>
      hskip r (List.mem_cons_of_mem q hr)
    cases hrq : readLeInt64 q.stream with
    | none =>
      simp only [List.cons_append, fetchLoop, hrq, List.append_eq]
      rw [ih hrest ps2 (some (GoError.plain "EOF"))]
      simp [hrq]
    | some ub =>
      rcases ub with ⟨u, b⟩
      have hshort : (limitTake u b).length < 16 := by
        by_contra hge
        simp [peerFetchOk, hrq] at hq
        omega
      have hdec : copyDecrypt ks encKey (limitTake u b) =
          .error (newErr .corruptionError "short IV read") := by
        unfold copyDecrypt
        rw [if_pos hshort]
      simp only [List.cons_append, fetchLoop, hrq, hdec, List.append_eq]
      rw [ih hrest ps2 (some (newErr .corruptionError "short IV read"))]
      simp [hrq]

/-- C6: on a local miss, `Get` broadcasts a `GetFile` message, waits
500 ms, then walks the peers in order: peers whose response does not
parse are skipped (closing their stream when the size header was
readable), and the first peer that supplies a little-endian int64 size
`n` followed by at least `n` bytes has exactly those `n` bytes piped
through decrypt-and-copy into the local store; its stream is closed and
its decrypted payload is returned. -/
theorem get_local_miss_network_path (ks : KeyStream) (s : FileServer) (key : String)
    (ps1 ps2 : List Peer) (p : Peer) (n : Nat) (body : Bytes)
    (hpeers : s.peers = ps1 ++ p :: ps2)
    (hmiss : storeLookup s.store s.id key = none)
    (hb : (FileServer.broadcast s.peers (.getFile { id := s.id, key := hashKey key })).1 =
      .ok ())
    (hskip : ∀ q ∈ ps1, peerFetchOk q = false)
    (hp : readLeInt64 p.stream = some (n, body)) (hn : n < 2 ^ 63) (hnb : n ≤ body.length)
    (h16 : 16 ≤ n) :
    FileServer.Get ks s key =
      (.ok (ctrXor ks s.encKey ((body.take n).take 16) ((body.take n).drop 16)),
       (storeWrite s.store s.id key
         (ctrXor ks s.encKey ((body.take n).take 16) ((body.take n).drop 16))).1,
       (FileServer.broadcast s.peers (.getFile { id := s.id, key := hashKey key })).2
         ++ [Effect.waitMs 500]
         ++ (ps1.flatMap (fun q =>
              if (readLeInt64 q.stream).isSome then [Effect.closeStream q.addr] else [])
            ++ [Effect.closeStream p.addr])) := by
  obtain ⟨sid, senc, speers, sstore⟩ := s
  dsimp only at hpeers hmiss hb ⊢
  subst hpeers
  have hlen : ¬ (ps1 ++ p :: ps2).length = 0 := by simp
  have hbpair : FileServer.broadcast (ps1 ++ p :: ps2)
        (.getFile { id := sid, key := hashKey key }) =
      (.ok (),
        (FileServer.broadcast (ps1 ++ p :: ps2)
          (.getFile { id := sid, key := hashKey key })).2) := by
    rw [← hb]
  have hloop := fetchLoop_first_success ks senc sid key sstore p n body hp hn hnb h16
      ps1 hskip ps2 none
  unfold FileServer.Get
  simp only [hmiss]
  unfold FileServer.fetchFileFromNetwork
  dsimp only
  rw [if_neg hlen, hbpair]
  dsimp only
  rw [hloop]
  simp only [storeLookup_storeWrite]

/-- C6 witness: two peers; the first supplies no bytes (its size read
fails, no CloseStream), the second replies with size 18 and an 18-byte
ciphertext, which is decrypted into the store; only the second peer's
stream is closed, after the broadcast effects and the 500 ms wait. -/
theorem get_local_miss_network_path_witness :
    FileServer.Get ksModel
      { id := "n1", encKey := [3],
        peers := [{ addr := "a", sendErr := fun _ => none, stream := [] },
          { addr := "b", sendErr := fun _ => none,
            stream := leEncode 18 ++ (List.replicate 16 0 ++ [10, 20]) }],
        store := [] } "k" =
      (.ok (ctrXor ksModel [3]
          (((List.replicate 16 0 ++ [10, 20]).take 18).take 16)
          (((List.replicate 16 0 ++ [10, 20]).take 18).drop 16)),
       (storeWrite [] "n1" "k"
         (ctrXor ksModel [3]
           (((List.replicate 16 0 ++ [10, 20]).take 18).take 16)
           (((List.replicate 16 0 ++ [10, 20]).take 18).drop 16))).1,
       (FileServer.broadcast
           [{ addr := "a", sendErr := fun _ => none, stream := [] },
            { addr := "b", sendErr := fun _ => none,
              stream := leEncode 18 ++ (List.replicate 16 0 ++ [10, 20]) }]
           (.getFile { id := "n1", key := hashKey "k" })).2
         ++ [Effect.waitMs 500]
         ++ (([{ addr := "a", sendErr := fun _ => none, stream := [] }] : List Peer).flatMap
              (fun q =>
                if (readLeInt64 q.stream).isSome then [Effect.closeStream q.addr] else [])
            ++ [Effect.closeStream "b"])) :=
  get_local_miss_network_path ksModel
    { id := "n1", encKey := [3],
      peers := [{ addr := "a", sendErr := fun _ => none, stream := [] },
        { addr := "b", sendErr := fun _ => none,
          stream := leEncode 18 ++ (List.replicate 16 0 ++ [10, 20]) }],
      store := [] } "k"
    [{ addr := "a", sendErr := fun _ => none, stream := [] }] []
    { addr := "b", sendErr := fun _ => none,
      stream := leEncode 18 ++ (List.replicate 16 0 ++ [10, 20]) }
    18 (List.replicate 16 0 ++ [10, 20])
    rfl rfl rfl (by decide) (by decide) (by decide) (by decide) (by decide)

/-! ## C7 — StoreFile handler -/

/-- C7: on `StoreFile { node_id, hashed_key, size }` from a registered
peer, the handler writes the first `size` bytes of the peer's stream into
the local store through the plain (non-decrypting) write path and calls
`CloseStream` on that peer; with at least `size` bytes available, exactly
`size` bytes are copied. -/
theorem storefile_handler (s : FileServer) (from_ : String) (msg : MessageStoreFile)
    (p : Peer) (hp : findPeer s.peers from_ = some p)
    (hlen : msg.size.toNat ≤ p.stream.length) :
    FileServer.handleMessageStoreFile s from_ msg =
      (.ok (((msg.id, msg.key), p.stream.take msg.size.toNat) :: s.store),
        [Effect.closeStream from_]) ∧
    (p.stream.take msg.size.toNat).length = msg.size.toNat := by
  constructor
  · simp [FileServer.handleMessageStoreFile, hp, storeWrite]
  · simp [List.length_take]; omega

/-- C7 witness: a two-byte blob announced with `Size = 2` from peer
`"a"` holding stream `[7, 8, 9]` lands verbatim as `[7, 8]`. -/
theorem storefile_handler_witness :
    FileServer.handleMessageStoreFile
        { id := "n1", encKey := [],
          peers := [{ addr := "a", sendErr := fun _ => none, stream := [7, 8, 9] }],
          store := [] }
        "a" { id := "o", key := "hk", size := 2 } =
      (.ok [(("o", "hk"), [7, 8])], [Effect.closeStream "a"]) ∧
    (([7, 8, 9] : Bytes).take ((2 : Int)).toNat).length = ((2 : Int)).toNat := by
  refine storefile_handler
    { id := "n1", encKey := [],
      peers := [{ addr := "a", sendErr := fun _ => none, stream := [7, 8, 9] }],
      store := [] }
    "a" { id := "o", key := "hk", size := 2 }
    { addr := "a", sendErr := fun _ => none, stream := [7, 8, 9] } ?_ (by decide)
  rfl

/-! ## C8 — GetFile handler on a missing key -/

/-- C8: when the requested key is absent from the store, the `GetFile`
handler returns an error (of kind `FileNotFound`) and writes nothing to
the requesting peer. -/
theorem getfile_missing_key (s : FileServer) (from_ : String) (msg : MessageGetFile)
    (h : storeLookup s.store msg.id msg.key = none) :
    (∃ e, (FileServer.handleMessageGetFile s from_ msg).1 = .error e ∧
      GetType e = .fileNotFoundError) ∧
    (FileServer.handleMessageGetFile s from_ msg).2 = [] := by
  refine ⟨⟨newErr .fileNotFoundError ("file not found: " ++ msg.key), ?_, rfl⟩, ?_⟩ <;>
    simp [FileServer.handleMessageGetFile, h]

/-- C8 witness: an empty-store node receives `GetFile` for a key it does
not hold; the handler errors and its effect trace is empty. -/
theorem getfile_missing_key_witness :
    (∃ e, (FileServer.handleMessageGetFile
        { id := "n1", encKey := [], peers := [], store := [] }
        "a" { id := "o", key := "hk" }).1 = .error e ∧
      GetType e = .fileNotFoundError) ∧
    (FileServer.handleMessageGetFile
        { id := "n1", encKey := [], peers := [], store := [] }
        "a" { id := "o", key := "hk" }).2 = [] :=
  getfile_missing_key
    { id := "n1", encKey := [], peers := [], store := [] }
    "a" { id := "o", key := "hk" } rfl

/-! ## C9 — Stop -/

/-- C9 counterexample: `Stop` is not infallible under repeated
invocation — the first call from a fresh server closes the quit channel,
and a second call panics (Go close of an already-closed channel), so the
double call does not complete. -/
theorem stop_twice_panics :
    StopOp { quitchClosed := false } = some { quitchClosed := true } ∧
    (StopOp { quitchClosed := false }).bind StopOp = none :=
  ⟨rfl, rfl⟩

/-- C9 amended: on any server whose quit channel is not yet closed — in
particular on the first invocation — `Stop` completes without failure
and signals the message loop to quit by closing the channel. -/
theorem stop_first_call_ok (st : ServerLifecycle) (h : st.quitchClosed = false) :
    StopOp st = some { quitchClosed := true } := by
  simp [StopOp, h]

/-- C9 witness: `Stop` on a fresh server succeeds and marks the quit
channel closed. -/
theorem stop_first_call_ok_witness :
    StopOp { quitchClosed := false } = some { quitchClosed := true } :=
  stop_first_call_ok { quitchClosed := false } rfl

/-! ## C10 — Store with an empty peer registry -/

/-- C10: with no connected peers, `Store` writes the blob to the local
store and returns success, and the effect trace is empty — no message
and no stream bytes reach the network. -/
theorem store_no_peers_frame (ks : KeyStream) (iv : Bytes) (s : FileServer) (key : String)
    (data : Bytes) (h : s.peers = []) :
    FileServer.Store ks iv s key data =
      (.ok (), (storeWrite s.store s.id key data).1, []) := by
  simp [FileServer.Store, h]

/-- C10 witness: a peerless node stores three bytes locally with an empty
effect trace. -/
theorem store_no_peers_frame_witness :
    FileServer.Store ksModel (List.replicate 16 0)
        { id := "n1", encKey := [], peers := [], store := [] } "k" [1, 2, 3] =
      (.ok (), (storeWrite [] "n1" "k" [1, 2, 3]).1, []) :=
  store_no_peers_frame ksModel (List.replicate 16 0)
    { id := "n1", encKey := [], peers := [], store := [] } "k" [1, 2, 3] rfl

end DFS
